import Mathlib

/-!
Verification of the Fibonacci STARK verifier gadget pipeline
(src/bitcoin_script/mod.rs).

The orchestrator `FibonacciVerifierGadget::run_verifier` concatenates five
kinds of script fragments: the Fiat-Shamir gadget, the Prepare gadget, a
per-query Quotient gadget and a per-query Fold gadget (unrolled once per
query index), and a final `clean_stack` pass.  We embed the generated
program as a list of stages at gadget granularity, mirroring the
concatenation structure of the source, and give the stages a stack-effect
semantics.  The gadget submodules (fiat_shamir.rs, prepare.rs,
quotients.rs, fold.rs) are part of the repository but their sources are
not available here, so their stack effects are modelled from the design
specification and from the stack-layout comments inside run_verifier.
-/

namespace FibonacciVerifier

/-- Modelled from the spec: the opaque Fiat-Shamir transcript state
(`Sha256Channel` from the external stwo crate).  Only its identity
matters for the orchestrator, which threads it to the Fiat-Shamir gadget
by shared reference. -/
structure Sha256Channel where
  digest : List Nat
deriving DecidableEq

/-- One fragment of the generated program, at gadget granularity: the five
script fragments concatenated by `run_verifier`, plus the `OP_TRUE`
success marker appended by the caller (the test harness). -/
inductive Stage where
  | fiatShamir (channel : Sha256Channel)
  | prepare
  | perQueryQuotient (i : Nat)
  | perQueryFold (i : Nat)
  | cleanStack (n : Nat)
  | opTrue
deriving DecidableEq

/-- The Fibonacci log size in this test (src/bitcoin_script/mod.rs line 21). -/
def FIB_LOG_SIZE : Nat := 5

/-- Width in stack items of one (extension-)field element (observed
width 4, e.g. circle_poly_alpha and the last-layer value each occupy 4
items in the layout comments of run_verifier). -/
def elem_width : Nat := 4

/-- Width in stack items of the folded seed value produced by the
per-query Quotient gadget and consumed by the per-query Fold gadget. -/
def folded_seed_width : Nat := 4

/-- The script fragment emitted by `FibonacciFiatShamirGadget::run(channel)`,
as one stage. -/
def FibonacciFiatShamirGadget.run (channel : Sha256Channel) : List Stage :=
  [Stage.fiatShamir channel]

/-- The script fragment emitted by `FibonacciPrepareGadget::run()`, as one
stage. -/
def FibonacciPrepareGadget.run : List Stage :=
  [Stage.prepare]

/-- The script fragment emitted by `FibonacciPerQueryQuotientGadget::run(i)`,
as one stage. -/
def FibonacciPerQueryQuotientGadget.run (i : Nat) : List Stage :=
  [Stage.perQueryQuotient i]

/-- The script fragment emitted by `FibonacciPerQueryFoldGadget::run(i)`,
as one stage. -/
def FibonacciPerQueryFoldGadget.run (i : Nat) : List Stage :=
  [Stage.perQueryFold i]

/-- The script fragment emitted by `clean_stack(n)` (from the external
bitcoin_circle_stark utils), as one stage. -/
def clean_stack (n : Nat) : List Stage :=
  [Stage.cleanStack n]

/-- The item count passed to `clean_stack` by run_verifier, written
exactly as the arithmetic expression in the source (mod.rs line 72). -/
def clean_stack_count (nQueries fibLogSize : Nat) : Nat :=
  24 + 4 + 12 + 16 + 12 + 8 + 24 + (2 + 8 + 1) * nQueries + 4 +
    (1 + 4) * fibLogSize + 4

/-- The per-query loop of run_verifier: the Rust `for i in 0..N_QUERIES`
is unrolled at generation time, appending Quotient(i) followed
immediately by Fold(i) for each successive index. -/
def queryLoop : Nat → List Stage
  | 0 => []
  | n + 1 =>
    queryLoop n ++ FibonacciPerQueryQuotientGadget.run n ++
      FibonacciPerQueryFoldGadget.run n

/-- `FibonacciVerifierGadget::run_verifier` (mod.rs lines 28-74):
Fiat-Shamir, then Prepare, then the unrolled per-query loop, then the
final clean_stack pass.  `N_QUERIES` (an external constant of the stwo
crate) and `FIB_LOG_SIZE` are passed as parameters so that the claims
quantifying over them can be stated. -/
def FibonacciVerifierGadget.run_verifier (channel : Sha256Channel)
    (nQueries fibLogSize : Nat) : List Stage :=
  FibonacciFiatShamirGadget.run channel ++
    FibonacciPrepareGadget.run ++
    queryLoop nQueries ++
    clean_stack (clean_stack_count nQueries fibLogSize)

/-- The stack layout enumerated in the comments of run_verifier
(mod.rs lines 56-69), as the list of the item counts of its entries,
deepest entry first: circle_poly_alpha, the per-layer
(commitment, alpha) pairs, the last layer, the queries, the trace
queries, the composition queries, the masked points, the oods point, the
(a, b) pairs for trace, the (a, b) pairs for composition, the prepared
masked points, the prepared oods point, and the coefficient powers. -/
def intermediate_layout (nQueries fibLogSize : Nat) : List Nat :=
  [4, (1 + 4) * fibLogSize, 4, nQueries, 2 * nQueries, 8 * nQueries,
    24, 8, 12, 16, 12, 4, 24]

/-- Modelled from the spec (the Fiat-Shamir gadget lives in
src/bitcoin_script/fiat_shamir.rs, which is not available here): the
item count of the region pushed by the Fiat-Shamir gadget —
circle_poly_alpha, the random combination coefficient (4 items), one
(commitment, alpha) pair per layer ((1+4) items each), the expected
last-layer value (4 items), the query indices (N_QUERIES items), the
trace openings (2·N_QUERIES items) and the composition openings
(8·N_QUERIES items).  This matches both the gadget contract in the
design (coefficient, then last-layer value, then queries and openings)
and the first six entries of the layout comment of run_verifier
(mod.rs lines 36-42). -/
def fiat_shamir_item_count (nQueries fibLogSize : Nat) : Nat :=
  4 + (1 + 4) * fibLogSize + 4 + nQueries + 2 * nQueries + 8 * nQueries

/-- Modelled from the spec (src/bitcoin_script/prepare.rs is not
available here): the item count pushed by the Prepare gadget above the
untouched Fiat-Shamir region — the masked points (24), the oods point
(8), the (a, b) line coefficients for trace (12) and composition (16),
the prepared masked points (12), the prepared oods point (4), and the
coefficient power series (24), matching the remaining entries of the
layout comment of run_verifier (mod.rs lines 43-49). -/
def prepare_item_count : Nat :=
  24 + 8 + 12 + 16 + 12 + 4 + 24

/-- An item of the execution stack: either an intermediate data item
pushed by a gadget, or the OP_TRUE success marker. -/
inductive Item where
  | datum
  | marker
deriving DecidableEq

/-- Modelled from the spec: the witness (hint) data, reduced to the one
bit the stack-effect semantics observes per query — whether that query's
final equality check against the last-layer constant passes.  A witness
derived from a valid proof has every check passing. -/
structure Witness where
  queryCheckPasses : Nat → Bool

/-- Modelled from the spec: the stack effect of one stage.  The
Fiat-Shamir and Prepare gadgets push their regions; the per-query
Quotient gadget pushes the folded seed for its query; the per-query Fold
gadget consumes the seed and performs the final equality check against
the last-layer constant, aborting the machine (no result) when the check
fails; clean_stack removes the given number of items; OP_TRUE pushes the
success marker. -/
def runStage (w : Witness) (nQueries fibLogSize : Nat) :
    Stage → List Item → Option (List Item)
  | Stage.fiatShamir _, s =>
    some (List.replicate (fiat_shamir_item_count nQueries fibLogSize)
      Item.datum ++ s)
  | Stage.prepare, s =>
    some (List.replicate prepare_item_count Item.datum ++ s)
  | Stage.perQueryQuotient _, s =>
    some (List.replicate folded_seed_width Item.datum ++ s)
  | Stage.perQueryFold i, s =>
    if w.queryCheckPasses i = true ∧ folded_seed_width ≤ s.length then
      some (s.drop folded_seed_width)
    else none
  | Stage.cleanStack n, s =>
    if n ≤ s.length then some (s.drop n) else none
  | Stage.opTrue, s =>
    some (Item.marker :: s)

/-- Run a stage list on a stack, aborting as soon as a stage aborts.
Execution has no output channel other than the resulting stack (or the
abort). -/
def runScript (w : Witness) (nQueries fibLogSize : Nat) :
    List Stage → List Item → Option (List Item)
  | [], s => some s
  | stg :: rest, s =>
    (runStage w nQueries fibLogSize stg s).bind
      (runScript w nQueries fibLogSize rest)

/-- The executable program assembled by the test (mod.rs lines 131-134):
the script returned by run_verifier followed by OP_TRUE. -/
def test_program (channel : Sha256Channel) (nQueries fibLogSize : Nat) :
    List Stage :=
  FibonacciVerifierGadget.run_verifier channel nQueries fibLogSize ++
    [Stage.opTrue]

/-- Success convention of the execution engine: the run completes and
leaves exactly one item, the success marker. -/
def reportsSuccess (r : Option (List Item)) : Prop :=
  r = some [Item.marker]

/-- The signed stack-depth effect of one stage, a pure function of the
protocol parameters. -/
def stageDelta (nQueries fibLogSize : Nat) : Stage → Int
  | Stage.fiatShamir _ => (fiat_shamir_item_count nQueries fibLogSize : Int)
  | Stage.prepare => (prepare_item_count : Int)
  | Stage.perQueryQuotient _ => (folded_seed_width : Int)
  | Stage.perQueryFold _ => -(folded_seed_width : Int)
  | Stage.cleanStack n => -(n : Int)
  | Stage.opTrue => 1

/-- The signed stack-depth effect of a stage list. -/
def scriptDelta (nQueries fibLogSize : Nat) (p : List Stage) : Int :=
  (p.map (stageDelta nQueries fibLogSize)).sum

/-- Modelled from the spec (src/bitcoin_script/prepare.rs is not
available here): the Prepare gadget computes the power series of the
combination coefficient by repeated multiplication — each new power is
obtained by one multiplication by the coefficient — laid out from the
highest power down to the first.  `coeff_power_series c n` is the list
of the first n powers of c, highest first. -/
def coeff_power_series {F : Type} [Field F] (c : F) : Nat → List F
  | 0 => []
  | n + 1 =>
    match coeff_power_series c n with
    | [] => [c]
    | top :: rest => c * top :: top :: rest

/-- A witness whose per-query checks all pass (a witness derived from a
valid proof). -/
def validWitness : Witness :=
  ⟨fun _ => true⟩

/-- A witness whose per-query checks all fail. -/
def failingWitness : Witness :=
  ⟨fun _ => false⟩

/-- A concrete transcript state, for instantiating theorems. -/
def someChannel : Sha256Channel :=
  ⟨[]⟩

lemma runScript_append (w : Witness) (nQueries fibLogSize : Nat)
    (p q : List Stage) (s : List Item) :
    runScript w nQueries fibLogSize (p ++ q) s =
      (runScript w nQueries fibLogSize p s).bind
        (runScript w nQueries fibLogSize q) := by
  induction p generalizing s with
  | nil => simp [runScript]
  | cons stg rest ih =>
    simp only [List.cons_append, runScript]
    cases runStage w nQueries fibLogSize stg s with
    | none => simp
    | some s1 => simp [ih]

lemma runScript_queryLoop_of_valid (w : Witness) (nQueries fibLogSize : Nat) :
    ∀ (n : Nat) (s : List Item),
      (∀ i, i < n → w.queryCheckPasses i = true) →
      runScript w nQueries fibLogSize (queryLoop n) s = some s := by
  intro n
  induction n with
  | zero => intro s _; simp [queryLoop, runScript]
  | succ n ih =>
    intro s h
    rw [queryLoop, runScript_append, runScript_append,
      ih s (fun i hi => h i (Nat.lt_succ_of_lt hi))]
    simp [runScript, runStage, FibonacciPerQueryQuotientGadget.run,
      FibonacciPerQueryFoldGadget.run, h n (Nat.lt_succ_self n),
      folded_seed_width, List.drop_left']

lemma runScript_queryLoop_of_fail (w : Witness) (nQueries fibLogSize : Nat) :
    ∀ (n : Nat) (s : List Item) (i : Nat), i < n →
      w.queryCheckPasses i = false →
      runScript w nQueries fibLogSize (queryLoop n) s = none := by
  intro n
  induction n with
  | zero => intro s i hi; omega
  | succ n ih =>
    intro s i hi hfail
    rw [queryLoop, runScript_append, runScript_append]
    rcases Nat.lt_succ_iff_lt_or_eq.mp hi with hlt | heq
    · rw [ih s i hlt hfail]
      simp
    · subst heq
      cases hq : runScript w nQueries fibLogSize (queryLoop i) s with
      | none => simp
      | some s1 =>
        simp [runScript, runStage, FibonacciPerQueryQuotientGadget.run,
          FibonacciPerQueryFoldGadget.run, hfail]

lemma queryLoop_eq_flatMap (n : Nat) :
    queryLoop n = (List.range n).flatMap
      (fun i => [Stage.perQueryQuotient i, Stage.perQueryFold i]) := by
  induction n with
  | zero => rfl
  | succ n ih =>
    rw [queryLoop, List.range_succ, List.flatMap_append, ← ih]
    simp [FibonacciPerQueryQuotientGadget.run,
      FibonacciPerQueryFoldGadget.run, List.append_assoc]

lemma opTrue_not_mem_queryLoop (n : Nat) :
    Stage.opTrue ∉ queryLoop n := by
  induction n with
  | zero => simp [queryLoop]
  | succ n ih =>
    simp [queryLoop, FibonacciPerQueryQuotientGadget.run,
      FibonacciPerQueryFoldGadget.run, ih]

lemma runScript_length (w : Witness) (nQueries fibLogSize : Nat) :
    ∀ (p : List Stage) (s s1 : List Item),
      runScript w nQueries fibLogSize p s = some s1 →
      (s1.length : Int) = (s.length : Int) + scriptDelta nQueries fibLogSize p := by
  intro p
  induction p with
  | nil =>
    intro s s1 h
    simp only [runScript, Option.some.injEq] at h
    subst h
    simp [scriptDelta]
  | cons stg rest ih =>
    intro s s1 h
    simp only [runScript] at h
    cases hst : runStage w nQueries fibLogSize stg s with
    | none => rw [hst] at h; simp at h
    | some s2 =>
      rw [hst] at h
      simp only [Option.some_bind] at h
      have hrest := ih s2 s1 h
      have hone : (s2.length : Int) =
          (s.length : Int) + stageDelta nQueries fibLogSize stg := by
        cases stg with
        | fiatShamir ch =>
          simp only [runStage, Option.some.injEq] at hst
          subst hst
          simp only [stageDelta, List.length_append, List.length_replicate]
          push_cast
          ring
        | prepare =>
          simp only [runStage, Option.some.injEq] at hst
          subst hst
          simp only [stageDelta, List.length_append, List.length_replicate]
          push_cast
          ring
        | perQueryQuotient i =>
          simp only [runStage, Option.some.injEq] at hst
          subst hst
          simp only [stageDelta, List.length_append, List.length_replicate]
          push_cast
          ring
        | perQueryFold i =>
          simp only [runStage] at hst
          split at hst
          · rename_i hcond
            simp only [Option.some.injEq] at hst
            subst hst
            simp only [stageDelta, List.length_drop]
            omega
          · exact absurd hst (by simp)
        | cleanStack n =>
          simp only [runStage] at hst
          split at hst
          · rename_i hcond
            simp only [Option.some.injEq] at hst
            subst hst
            simp only [stageDelta, List.length_drop]
            omega
          · exact absurd hst (by simp)
        | opTrue =>
          simp only [runStage, Option.some.injEq] at hst
          subst hst
          simp only [stageDelta, List.length_cons]
          push_cast
          ring
      rw [hrest, hone]
      simp only [scriptDelta, List.map_cons, List.sum_cons]
      ring

lemma clean_stack_count_split (nQueries fibLogSize : Nat) :
    clean_stack_count nQueries fibLogSize =
      prepare_item_count + fiat_shamir_item_count nQueries fibLogSize := by
  simp only [clean_stack_count, prepare_item_count, fiat_shamir_item_count]
  ring

lemma run_verifier_exec_of_valid (ch : Sha256Channel)
    (nQueries fibLogSize : Nat) (w : Witness)
    (hvalid : ∀ i, i < nQueries → w.queryCheckPasses i = true) :
    runScript w nQueries fibLogSize
      (FibonacciVerifierGadget.run_verifier ch nQueries fibLogSize) [] =
      some [] := by
  unfold FibonacciVerifierGadget.run_verifier
  rw [runScript_append, runScript_append, runScript_append]
  have h1 : runScript w nQueries fibLogSize
      (FibonacciFiatShamirGadget.run ch) [] =
      some (List.replicate (fiat_shamir_item_count nQueries fibLogSize)
        Item.datum) := by
    simp [FibonacciFiatShamirGadget.run, runScript, runStage]
  rw [h1]
  simp only [Option.some_bind]
  have h2 : runScript w nQueries fibLogSize FibonacciPrepareGadget.run
      (List.replicate (fiat_shamir_item_count nQueries fibLogSize)
        Item.datum) =
      some (List.replicate prepare_item_count Item.datum ++
        List.replicate (fiat_shamir_item_count nQueries fibLogSize)
          Item.datum) := by
    simp [FibonacciPrepareGadget.run, runScript, runStage]
  rw [h2]
  simp only [Option.some_bind]
  rw [runScript_queryLoop_of_valid w nQueries fibLogSize nQueries _ hvalid]
  simp only [Option.some_bind]
  have hlen : (List.replicate prepare_item_count Item.datum ++
      List.replicate (fiat_shamir_item_count nQueries fibLogSize)
        Item.datum).length = clean_stack_count nQueries fibLogSize := by
    simp [clean_stack_count_split]
  simp only [clean_stack, runScript, runStage]
  rw [if_pos (le_of_eq hlen.symm)]
  rw [← hlen, List.drop_length]
  rfl

lemma test_program_exec_of_valid (ch : Sha256Channel)
    (nQueries fibLogSize : Nat) (w : Witness)
    (hvalid : ∀ i, i < nQueries → w.queryCheckPasses i = true) :
    runScript w nQueries fibLogSize
      (test_program ch nQueries fibLogSize) [] = some [Item.marker] := by
  unfold test_program
  rw [runScript_append,
    run_verifier_exec_of_valid ch nQueries fibLogSize w hvalid]
  simp [runScript, runStage]

lemma run_verifier_exec_of_fail (ch : Sha256Channel)
    (nQueries fibLogSize : Nat) (w : Witness) (i : Nat)
    (hi : i < nQueries) (hfail : w.queryCheckPasses i = false) :
    runScript w nQueries fibLogSize
      (FibonacciVerifierGadget.run_verifier ch nQueries fibLogSize) [] =
      none := by
  unfold FibonacciVerifierGadget.run_verifier
  rw [runScript_append, runScript_append, runScript_append]
  have h1 : runScript w nQueries fibLogSize
      (FibonacciFiatShamirGadget.run ch) [] =
      some (List.replicate (fiat_shamir_item_count nQueries fibLogSize)
        Item.datum) := by
    simp [FibonacciFiatShamirGadget.run, runScript, runStage]
  rw [h1]
  simp only [Option.some_bind]
  have h2 : runScript w nQueries fibLogSize FibonacciPrepareGadget.run
      (List.replicate (fiat_shamir_item_count nQueries fibLogSize)
        Item.datum) =
      some (List.replicate prepare_item_count Item.datum ++
        List.replicate (fiat_shamir_item_count nQueries fibLogSize)
          Item.datum) := by
    simp [FibonacciPrepareGadget.run, runScript, runStage]
  rw [h2]
  simp only [Option.some_bind]
  rw [runScript_queryLoop_of_fail w nQueries fibLogSize nQueries _ i hi
    hfail]
  rfl

lemma test_program_exec_of_fail (ch : Sha256Channel)
    (nQueries fibLogSize : Nat) (w : Witness) (i : Nat)
    (hi : i < nQueries) (hfail : w.queryCheckPasses i = false) :
    runScript w nQueries fibLogSize
      (test_program ch nQueries fibLogSize) [] = none := by
  unfold test_program
  rw [runScript_append,
    run_verifier_exec_of_fail ch nQueries fibLogSize w i hi hfail]
  rfl

/-- Claim C1: the program emitted by FibonacciVerifierGadget::run_verifier
consists of exactly the Fiat-Shamir gadget once, then the Prepare gadget
once, then for every i from 0 to N_QUERIES-1 in increasing index order
the per-query Quotient gadget for i immediately followed by the
per-query Fold gadget for i, then one final stack-cleanup pass — with no
other stages; the emitted stage list is a pure function of the static
parameters, with each per-query stage carrying its static index, so
there is no runtime branching on the query index. -/
theorem run_verifier_stage_sequence (ch : Sha256Channel)
    (nQueries fibLogSize : Nat) :
    FibonacciVerifierGadget.run_verifier ch nQueries fibLogSize =
      [Stage.fiatShamir ch, Stage.prepare] ++
        (List.range nQueries).flatMap
          (fun i => [Stage.perQueryQuotient i, Stage.perQueryFold i]) ++
        [Stage.cleanStack (clean_stack_count nQueries fibLogSize)] := by
  unfold FibonacciVerifierGadget.run_verifier
  rw [queryLoop_eq_flatMap]
  simp [FibonacciFiatShamirGadget.run, FibonacciPrepareGadget.run,
    clean_stack, List.append_assoc]

/-- Claim C2: the number of stack items removed by the final cleanup pass
of run_verifier equals the closed form 108 + 11·N_QUERIES +
5·FIB_LOG_SIZE, and this count equals the total item count of the
intermediate stack layout enumerated before cleanup (so no stale residue
is left). -/
theorem clean_stack_count_closed_form (nQueries fibLogSize : Nat) :
    clean_stack_count nQueries fibLogSize =
      108 + 11 * nQueries + 5 * fibLogSize ∧
    clean_stack_count nQueries fibLogSize =
      (intermediate_layout nQueries fibLogSize).sum := by
  constructor
  · simp only [clean_stack_count]
    ring
  · simp only [clean_stack_count, intermediate_layout, List.sum_cons,
      List.sum_nil]
    ring

/-- Claim C3, counterexample to the claim as stated: the program
generated by run_verifier (alone, as returned) does not have a net stack
effect of one success marker — executed with a witness derived from a
valid proof it leaves zero items and no marker. -/
theorem run_verifier_alone_no_marker :
    runScript validWitness 3 5
      (FibonacciVerifierGadget.run_verifier someChannel 3 5) [] = some [] ∧
    ¬ reportsSuccess (runScript validWitness 3 5
      (FibonacciVerifierGadget.run_verifier someChannel 3 5) []) := by
  have h : runScript validWitness 3 5
      (FibonacciVerifierGadget.run_verifier someChannel 3 5) [] =
      some [] :=
    run_verifier_exec_of_valid someChannel 3 5 validWitness
      (fun _ _ => rfl)
  refine ⟨h, ?_⟩
  rw [reportsSuccess, h]
  simp

/-- Claim C3 (amended): for every valid (size, N_QUERIES) parameter pair,
the executable program — run_verifier's script followed by the
caller-appended OP_TRUE success marker, as assembled by the test — has a
net stack effect of exactly one success marker and zero residual items
when executed with a witness derived from a valid proof, while
run_verifier's script alone has a net stack effect of exactly zero
items; the resulting stack (or the abort) is the only output channel of
the semantics. -/
theorem verifier_program_net_effect (ch : Sha256Channel)
    (nQueries fibLogSize : Nat) (w : Witness)
    (hvalid : ∀ i, i < nQueries → w.queryCheckPasses i = true) :
    runScript w nQueries fibLogSize
      (test_program ch nQueries fibLogSize) [] = some [Item.marker] ∧
    runScript w nQueries fibLogSize
      (FibonacciVerifierGadget.run_verifier ch nQueries fibLogSize) [] =
      some [] :=
  ⟨test_program_exec_of_valid ch nQueries fibLogSize w hvalid,
   run_verifier_exec_of_valid ch nQueries fibLogSize w hvalid⟩

/-- Witness for C3 (amended), at N_QUERIES = 3 and FIB_LOG_SIZE = 5 with
an all-checks-passing witness. -/
theorem verifier_program_net_effect_witness :
    runScript validWitness 3 5 (test_program someChannel 3 5) [] =
      some [Item.marker] ∧
    runScript validWitness 3 5
      (FibonacciVerifierGadget.run_verifier someChannel 3 5) [] =
      some [] :=
  verifier_program_net_effect someChannel 3 5 validWitness (fun _ _ => rfl)

/-- Claim C4: for the concrete scenario with FIB_LOG_SIZE = 5 (a 32-row
trace) and the fixed N_QUERIES security parameter, a valid proof
converted into its witness form (every per-query check passing) and
executed against the generated program always reports success. -/
theorem valid_proof_reports_success (ch : Sha256Channel) (nQueries : Nat)
    (w : Witness)
    (hvalid : ∀ i, i < nQueries → w.queryCheckPasses i = true) :
    reportsSuccess (runScript w nQueries FIB_LOG_SIZE
      (test_program ch nQueries FIB_LOG_SIZE) []) :=
  test_program_exec_of_valid ch nQueries FIB_LOG_SIZE w hvalid

/-- Witness for C4, at N_QUERIES = 3. -/
theorem valid_proof_reports_success_witness :
    reportsSuccess (runScript validWitness 3 FIB_LOG_SIZE
      (test_program someChannel 3 FIB_LOG_SIZE) []) :=
  valid_proof_reports_success someChannel 3 validWitness (fun _ _ => rfl)

/-- Claim C5, counterexample to the claim as stated: at FIB_LOG_SIZE = 5
and N_QUERIES = 3 the Fiat-Shamir gadget's output region does not have
(1+width)·layers + width + N_QUERIES + 2·N_QUERIES + 8·N_QUERIES = 62
items — the claimed formula omits the expected last-layer value (width
items), which the gadget also pushes (between the combination
coefficient and the query indices, per the run_verifier layout comment). -/
theorem fiat_shamir_count_counterexample :
    fiat_shamir_item_count 3 5 ≠ (1 + 4) * 5 + 4 + 3 + 2 * 3 + 8 * 3 := by
  decide

/-- Claim C5 (amended): the Fiat-Shamir gadget's output is a stack region
of exactly (1+width)·layers + width (combination coefficient) + width
(expected last-layer value) + N_QUERIES (index encoding) + 2·N_QUERIES
(trace openings) + 8·N_QUERIES (composition openings) items — i.e., for
width 4 and layers = FIB_LOG_SIZE, exactly 5·FIB_LOG_SIZE + 8 +
11·N_QUERIES items. -/
theorem fiat_shamir_count_amended (nQueries fibLogSize : Nat) :
    fiat_shamir_item_count nQueries fibLogSize =
      (1 + elem_width) * fibLogSize + elem_width + elem_width +
        nQueries + 2 * nQueries + 8 * nQueries ∧
    fiat_shamir_item_count nQueries fibLogSize =
      5 * fibLogSize + 8 + 11 * nQueries := by
  constructor
  · simp only [fiat_shamir_item_count, elem_width]
    ring
  · simp only [fiat_shamir_item_count]
    ring

/-- Claim C6: the coefficient power series produced by the Prepare
gadget, for combination coefficient c and 6 combined constraints, equals
[c^6, c^5, c^4, c^3, c^2, c^1] in that exact order, for every c in the
field (including c = 0 and c = 1), and occupies 6 · 4 = 24 stack items. -/
theorem coeff_power_series_exact (F : Type) [Field F] (c : F) :
    coeff_power_series c 6 =
      [c ^ 6, c ^ 5, c ^ 4, c ^ 3, c ^ 2, c ^ 1] ∧
    (coeff_power_series c 6).length * elem_width = 24 := by
  have h : coeff_power_series c 6 =
      [c * (c * (c * (c * (c * c)))), c * (c * (c * (c * c))),
        c * (c * (c * c)), c * (c * c), c * c, c] := rfl
  constructor
  · rw [h]
    simp only [List.cons.injEq, and_true]
    refine ⟨by ring, by ring, by ring, by ring, by ring, by ring⟩
  · rw [h]
    rfl

/-- Claim C7: if any single query's final equality check against the
last-layer constant fails in the Fold gadget, execution of the whole
verification halts non-successfully (a machine-level abort, no result at
all — not a recoverable condition); moreover the N_QUERIES per-query
checks are conjunctive: the single boolean outcome is success exactly
when every query's check passes, with no partial credit. -/
theorem single_query_failure_fatal (ch : Sha256Channel)
    (nQueries fibLogSize : Nat) (w : Witness) (i : Nat)
    (hi : i < nQueries) (hfail : w.queryCheckPasses i = false) :
    runScript w nQueries fibLogSize
      (test_program ch nQueries fibLogSize) [] = none ∧
    ¬ reportsSuccess (runScript w nQueries fibLogSize
      (test_program ch nQueries fibLogSize) []) ∧
    ∀ w1 : Witness,
      reportsSuccess (runScript w1 nQueries fibLogSize
        (test_program ch nQueries fibLogSize) []) ↔
      ∀ j, j < nQueries → w1.queryCheckPasses j = true := by
  refine ⟨test_program_exec_of_fail ch nQueries fibLogSize w i hi hfail,
    ?_, ?_⟩
  · rw [reportsSuccess,
      test_program_exec_of_fail ch nQueries fibLogSize w i hi hfail]
    simp
  · intro w1
    constructor
    · intro hsucc
      by_contra hnot
      push_neg at hnot
      obtain ⟨j, hj, hjfail⟩ := hnot
      rw [reportsSuccess, test_program_exec_of_fail ch nQueries fibLogSize
        w1 j hj (by simpa using hjfail)] at hsucc
      simp at hsucc
    · intro hall
      exact test_program_exec_of_valid ch nQueries fibLogSize w1 hall

/-- Witness for C7: with the all-checks-failing witness at N_QUERIES = 3
and FIB_LOG_SIZE = 5, execution aborts. -/
theorem single_query_failure_fatal_witness :
    runScript failingWitness 3 5 (test_program someChannel 3 5) [] =
      none :=
  (single_query_failure_fatal someChannel 3 5 failingWitness 0
    (by decide) rfl).1

/-- Claim C8: for every stage list and any witness, the stack depth after
executing it (whenever execution completes) is the depth before plus a
signed delta that is a fixed, statically known function of the protocol
parameters and the stage list only — never of the witness data; and the
stack after the full per-query Quotient/Fold loop is identical to the
stack before it (for a witness whose checks pass, the only case in which
execution proceeds past the loop). -/
theorem stack_depth_static (w : Witness) (nQueries fibLogSize : Nat) :
    (∀ (p : List Stage) (s s1 : List Item),
      runScript w nQueries fibLogSize p s = some s1 →
      (s1.length : Int) =
        (s.length : Int) + scriptDelta nQueries fibLogSize p) ∧
    (∀ s : List Item,
      (∀ i, i < nQueries → w.queryCheckPasses i = true) →
      runScript w nQueries fibLogSize (queryLoop nQueries) s = some s) :=
  ⟨runScript_length w nQueries fibLogSize,
   fun s hvalid =>
    runScript_queryLoop_of_valid w nQueries fibLogSize nQueries s hvalid⟩

/-- Witness for C8, at N_QUERIES = 3 and FIB_LOG_SIZE = 5: the loop
leaves the (empty) stack unchanged, and the depth accounting holds on a
concrete one-stage run. -/
theorem stack_depth_static_witness :
    runScript validWitness 3 5 (queryLoop 3) [] = some [] ∧
    ((List.replicate prepare_item_count Item.datum).length : Int) =
      (([] : List Item).length : Int) + scriptDelta 3 5 [Stage.prepare] :=
  ⟨(stack_depth_static validWitness 3 5).2 [] (fun _ _ => rfl),
   (stack_depth_static validWitness 3 5).1 [Stage.prepare] []
     (List.replicate prepare_item_count Item.datum) rfl⟩

/-- Claim C9: program generation is deterministic and purely functional —
two invocations of run_verifier with identical channel state and
identical public parameters produce identical programs.  (The embedding
renders run_verifier as a pure function, mirroring the source, which
reads the channel through a shared reference and touches no mutable
state shared between verification runs.) -/
theorem run_verifier_deterministic (ch1 ch2 : Sha256Channel)
    (n1 n2 L1 L2 : Nat) (hch : ch1 = ch2) (hn : n1 = n2) (hL : L1 = L2) :
    FibonacciVerifierGadget.run_verifier ch1 n1 L1 =
      FibonacciVerifierGadget.run_verifier ch2 n2 L2 := by
  subst hch
  subst hn
  subst hL
  rfl

/-- Witness for C9. -/
theorem run_verifier_deterministic_witness :
    FibonacciVerifierGadget.run_verifier someChannel 3 5 =
      FibonacciVerifierGadget.run_verifier someChannel 3 5 :=
  run_verifier_deterministic someChannel someChannel 3 3 5 5 rfl rfl rfl

/-- Claim C10: the script returned by run_verifier does not itself push
the success marker — it contains no OP_TRUE stage, and its final
clean_stack pass removes every item of the enumerated intermediate
layout, leaving zero items; the executable program is obtained by
appending OP_TRUE after the returned script (as the test does), and that
program's net effect is exactly one success item. -/
theorem run_verifier_pushes_no_marker (ch : Sha256Channel)
    (nQueries fibLogSize : Nat) (w : Witness)
    (hvalid : ∀ i, i < nQueries → w.queryCheckPasses i = true) :
    Stage.opTrue ∉
      FibonacciVerifierGadget.run_verifier ch nQueries fibLogSize ∧
    runScript w nQueries fibLogSize
      (FibonacciVerifierGadget.run_verifier ch nQueries fibLogSize) [] =
      some [] ∧
    test_program ch nQueries fibLogSize =
      FibonacciVerifierGadget.run_verifier ch nQueries fibLogSize ++
        [Stage.opTrue] ∧
    runScript w nQueries fibLogSize
      (test_program ch nQueries fibLogSize) [] = some [Item.marker] := by
  refine ⟨?_, run_verifier_exec_of_valid ch nQueries fibLogSize w hvalid,
    rfl, test_program_exec_of_valid ch nQueries fibLogSize w hvalid⟩
  unfold FibonacciVerifierGadget.run_verifier
  simp [FibonacciFiatShamirGadget.run, FibonacciPrepareGadget.run,
    clean_stack, opTrue_not_mem_queryLoop]

/-- Witness for C10, at N_QUERIES = 3 and FIB_LOG_SIZE = 5. -/
theorem run_verifier_pushes_no_marker_witness :
    Stage.opTrue ∉ FibonacciVerifierGadget.run_verifier someChannel 3 5 :=
  (run_verifier_pushes_no_marker someChannel 3 5 validWitness
    (fun _ _ => rfl)).1

end FibonacciVerifier
